import Mathlib

/-!
Shallow embedding of the gologger structured-logging facade
(risoftinc/go-logger, `logger.go`).

Pure Go code is translated into executable Lean definitions.  Go `any`
values carried in log fields and in contexts are modelled by `GoVal`;
`context.Context` is modelled by an association list of typed keys to
values; the zap engine handle is modelled by the data the facade passes
to it (sink list, caller options).  Field names and function names follow
the Go source wherever Lean allows it.
-/

namespace Gologger

/-- A Go `any` value as it occurs in log fields and context values. -/
inductive GoVal where
  | vStr (s : String)
  | vInt (n : Int)
  | vBool (b : Bool)
  | vNil
  deriving DecidableEq, Repr

/-- A Go `error` value: `err.Error()` returns `msg`.  A nullable `error`
argument is modelled as `Option GoError`. -/
structure GoError where
  msg : String
  deriving DecidableEq, Repr

/-- Keys usable with `context.WithValue`.  The package declares the private
typed key `RequestIDKey` (`contextKey "gologger-request-id"`); any other
key that unrelated code might bind is modelled by `other`. -/
inductive CtxKey where
  | requestIDKey
  | other (n : Nat)
  deriving DecidableEq, Repr

/-- A Go `context.Context` restricted to what the package observes:
the chain of `WithValue` bindings, most recent first. -/
structure GoContext where
  binds : List (CtxKey × GoVal)
  deriving DecidableEq, Repr

/-- Model of `context.Background()`: no bindings. -/
def GoContext.background : GoContext := ⟨[]⟩

/-- Model of `context.WithValue(ctx, k, v)`. -/
def GoContext.withValue (ctx : GoContext) (k : CtxKey) (v : GoVal) : GoContext :=
  ⟨(k, v) :: ctx.binds⟩

/-- Model of `ctx.Value(k)`: the most recent binding for `k`, if any. -/
def GoContext.value (ctx : GoContext) (k : CtxKey) : Option GoVal :=
  (ctx.binds.find? (fun p => p.1 == k)).map (fun p => p.2)

/-- Go source: `WithRequestID` adds a request ID to the context
(`context.WithValue(ctx, RequestIDKey, requestID)`). -/
def WithRequestID (ctx : GoContext) (requestID : String) : GoContext :=
  ctx.withValue CtxKey.requestIDKey (GoVal.vStr requestID)

/-- Go source: `GetRequestID` retrieves the request ID from the context;
the type assertion `ctx.Value(RequestIDKey).(string)` yields the string
on success and the empty string otherwise. -/
def GetRequestID (ctx : GoContext) : String :=
  match ctx.value CtxKey.requestIDKey with
  | some (GoVal.vStr requestID) => requestID
  | _ => ""

/-- Output modes for logger configuration (Go constants). -/
def OutputTerminal : String := "terminal"

/-- Output mode constant `OutputFile`. -/
def OutputFile : String := "file"

/-- Output mode constant `OutputBoth`. -/
def OutputBoth : String := "both"

/-- Configuration options for the logger (Go struct `LoggerConfig`). -/
structure LoggerConfig where
  OutputMode : String
  LogLevel : String
  LogDir : String
  RequestIDKey : String
  deriving DecidableEq, Repr

/-- A sink the engine writes to: the locked stderr terminal core, or a
rotating-file core rooted at a log directory (`zapcore.NewCore` over
`os.Stderr` resp. the lumberjack writer for `logDir`). -/
inductive Sink where
  | terminal
  | file (logDir : String)
  deriving DecidableEq, Repr

/-- The zap severity floor, from `getLogLevel`. -/
inductive ZapLevel where
  | debugLevel
  | infoLevel
  | warnLevel
  | errorLevel
  deriving DecidableEq, Repr

/-- Go source `getLogLevel`: maps a configured level string to the zap
severity floor; unrecognized values default to debug. -/
def getLogLevel (level : String) : ZapLevel :=
  if level = "debug" then ZapLevel.debugLevel
  else if level = "info" then ZapLevel.infoLevel
  else if level = "warn" then ZapLevel.warnLevel
  else if level = "error" then ZapLevel.errorLevel
  else ZapLevel.debugLevel

/-- The engine handle built by `initLogWithConfig`, modelled by the data
the facade hands to zap: the tee of cores, the severity floor, and the
caller options (`zap.AddCaller()`, `zap.AddCallerSkip(1)`). -/
structure EngineHandle where
  cores : List Sink
  floor : ZapLevel
  addCaller : Bool
  callerSkip : Nat
  deriving DecidableEq, Repr

/-- Go source `initLogWithConfig`: adds a terminal core when the mode is
terminal or both, a file core when the mode is file or both, and falls
back to a terminal core when no core was added; wraps the tee with
`zap.AddCaller()` and `zap.AddCallerSkip(1)`. -/
def initLogWithConfig (config : LoggerConfig) : EngineHandle :=
  let cores : List Sink := []
  let cores :=
    if config.OutputMode = OutputTerminal ∨ config.OutputMode = OutputBoth then
      cores ++ [Sink.terminal]
    else cores
  let cores :=
    if config.OutputMode = OutputFile ∨ config.OutputMode = OutputBoth then
      cores ++ [Sink.file config.LogDir]
    else cores
  let cores := if cores = [] then [Sink.terminal] else cores
  { cores := cores
    floor := getLogLevel config.LogLevel
    addCaller := true
    callerSkip := 1 }

/-- The Logger value (Go struct `Logger`): engine handle, bound context,
pending level, message, accumulated data fields (alternating key, value),
and the `hasData` flag.  Within a single chain the Go slice `data []any`
behaves exactly like this list; the aliasing of branched chains is
modelled separately by the slice semantics below. -/
structure Logger where
  log : EngineHandle
  ctx : GoContext
  level : String
  message : String
  data : List GoVal
  hasData : Bool
  requestIDKey : String
  deriving DecidableEq, Repr

/-- Go source `NewLoggerWithConfig`: normalizes an empty `RequestIDKey`
to `"request-id"` and builds the fresh logger value. -/
def NewLoggerWithConfig (config : LoggerConfig) : Logger :=
  let requestIDKey := if config.RequestIDKey = "" then "request-id" else config.RequestIDKey
  { log := initLogWithConfig config
    ctx := GoContext.background
    level := ""
    message := ""
    data := []
    hasData := false
    requestIDKey := requestIDKey }

/-- Go source `NewLogger`: the default configuration (both sinks, debug
floor, directory `"logger"`, key `"request-id"`). -/
def NewLogger : Logger :=
  NewLoggerWithConfig
    { OutputMode := OutputBoth
      LogLevel := "debug"
      LogDir := "logger"
      RequestIDKey := "request-id" }

/-- Go source `WithContext`: rebinds the context and resets level,
message, data and `hasData`, keeping the engine handle and the
request-id key. -/
def Logger.WithContext (l : Logger) (ctx : GoContext) : Logger :=
  { log := l.log
    ctx := ctx
    level := ""
    message := ""
    data := []
    hasData := false
    requestIDKey := l.requestIDKey }

/-- Go source `Debug`: sets the level to debug and the message. -/
def Logger.Debug (l : Logger) (msg : String) : Logger :=
  { l with level := "debug", message := msg }

/-- Go source `Info`: sets the level to info and the message. -/
def Logger.Info (l : Logger) (msg : String) : Logger :=
  { l with level := "info", message := msg }

/-- Go source `Warn`: sets the level to warn and the message. -/
def Logger.Warn (l : Logger) (msg : String) : Logger :=
  { l with level := "warn", message := msg }

/-- Go source `Error`: sets the level to error and the message. -/
def Logger.Error (l : Logger) (msg : String) : Logger :=
  { l with level := "error", message := msg }

/-- Go source `Fatal`: sets the level to fatal and the message. -/
def Logger.Fatal (l : Logger) (msg : String) : Logger :=
  { l with level := "fatal", message := msg }

/-- Go source `Panic`: sets the level to panic and the message. -/
def Logger.PanicLevel (l : Logger) (msg : String) : Logger :=
  { l with level := "panic", message := msg }

/-- Go source `Data`: appends the key and the value to the data list and
sets `hasData` (single-chain view of `l.data = append(l.data, key, value)`). -/
def Logger.Data (l : Logger) (key : String) (value : GoVal) : Logger :=
  { l with data := l.data ++ [GoVal.vStr key, value], hasData := true }

/-- Go source `ErrorData`: when the error is non-nil, appends
`"error", err.Error()` and sets `hasData`; a nil error leaves the
receiver unchanged. -/
def Logger.ErrorData (l : Logger) (err : Option GoError) : Logger :=
  match err with
  | some e => { l with data := l.data ++ [GoVal.vStr "error", GoVal.vStr e.msg], hasData := true }
  | none => l

/-- What one `Send` hands to the engine: a message-only emission
(`l.log.Debug(msg)` etc.) or a structured emission with the ordered
key/value list (`l.log.Debugw(msg, logData...)`). -/
inductive Emission where
  | plain (level : String) (message : String)
  | structured (level : String) (message : String) (fields : List GoVal)
  deriving DecidableEq, Repr

/-- The `logData` slice Send builds: the request-id pair (when the
resolved id is non-empty) followed by the accumulated data. -/
def logDataOf (l : Logger) : List GoVal :=
  (if GetRequestID l.ctx ≠ "" then [GoVal.vStr l.requestIDKey, GoVal.vStr (GetRequestID l.ctx)] else [])
    ++ l.data

/-- Go source `Send`: resolves the request id, builds `logData`, and
switches on the level; each recognized level dispatches structured when
`len(logData) > 0` and message-only otherwise; an unrecognized (e.g.
empty) level matches no case and emits nothing. -/
def Logger.Send (l : Logger) : Option Emission :=
  let logData := logDataOf l
  let hasStructuredData := !logData.isEmpty
  if l.level = "debug" then
    some (if hasStructuredData then Emission.structured "debug" l.message logData else Emission.plain "debug" l.message)
  else if l.level = "info" then
    some (if hasStructuredData then Emission.structured "info" l.message logData else Emission.plain "info" l.message)
  else if l.level = "warn" then
    some (if hasStructuredData then Emission.structured "warn" l.message logData else Emission.plain "warn" l.message)
  else if l.level = "error" then
    some (if hasStructuredData then Emission.structured "error" l.message logData else Emission.plain "error" l.message)
  else if l.level = "fatal" then
    some (if hasStructuredData then Emission.structured "fatal" l.message logData else Emission.plain "fatal" l.message)
  else if l.level = "panic" then
    some (if hasStructuredData then Emission.structured "panic" l.message logData else Emission.plain "panic" l.message)
  else
    none

/-!
Run-time slice semantics for `l.data = append(l.data, key, value)`.

The `Logger.Data` list model above is exact for a single linear chain, but
the Go method receives the logger by value while `data []any` is a slice
header sharing its backing array with every copy.  `append` writes in
place whenever the shared array has spare capacity, so two continuations
branched from one intermediate value can overwrite each other.  The model
below makes the backing store explicit: a `Store` is the list of allocated
backing arrays, a `Slice` is a header (array id, length, capacity).
Capacity growth follows the Go gc runtime rule for small slices
(double the capacity, or take the needed length when it exceeds the
double); for 16-byte `any` elements and the lengths used here the
size-class rounding leaves these capacities unchanged.
-/

/-- A backing store: allocated arrays, indexed by position.  Unused cells
hold `GoVal.vNil`. -/
abbrev Store := List (List GoVal)

/-- A Go slice header over a `Store`. -/
structure Slice where
  arrId : Nat
  len : Nat
  cap : Nat
  deriving DecidableEq, Repr

/-- Read a backing array from the store. -/
def Store.readArr (st : Store) (i : Nat) : List GoVal := st.getD i []

/-- The observable contents of a slice: the first `len` cells of its
backing array. -/
def sliceContents (st : Store) (s : Slice) : List GoVal :=
  (st.readArr s.arrId).take s.len

/-- Capacity chosen by the gc runtime when growing a small slice to hold
`newLen` elements. -/
def growCap (oldCap newLen : Nat) : Nat :=
  if newLen > 2 * oldCap then newLen else 2 * oldCap

/-- Go `append(s, x, y)` on a slice of `any`: writes into the shared
backing array when two cells of spare capacity exist, otherwise allocates
a fresh array of the grown capacity and copies. -/
def appendPair (st : Store) (s : Slice) (x y : GoVal) : Store × Slice :=
  if s.len + 2 ≤ s.cap then
    let arr := st.readArr s.arrId
    let arr2 := (arr.set s.len x).set (s.len + 1) y
    (st.set s.arrId arr2, { s with len := s.len + 2 })
  else
    let newCap := growCap s.cap (s.len + 2)
    let content := (st.readArr s.arrId).take s.len ++ [x, y]
    let arr2 := content ++ List.replicate (newCap - (s.len + 2)) GoVal.vNil
    (st ++ [arr2], { arrId := st.length, len := s.len + 2, cap := newCap })

/-- `Logger.Data` at the slice level: `l.data = append(l.data, key, value)`
threaded through the store. -/
def DataS (st : Store) (s : Slice) (key : String) (value : GoVal) : Store × Slice :=
  appendPair st s (GoVal.vStr key) value

/-- The data slice of a fresh logger: `make([]any, 0)` (array 0 of the
store, empty, capacity 0). -/
def freshDataSlice : Store × Slice := ([[]], ⟨0, 0, 0⟩)

/-- The base chain `Data("a",1).Data("b",2).Data("c",3)` from a fresh
logger, at the slice level. -/
def branchBase : Store × Slice :=
  let p0 := freshDataSlice
  let p1 := DataS p0.1 p0.2 "a" (GoVal.vInt 1)
  let p2 := DataS p1.1 p1.2 "b" (GoVal.vInt 2)
  DataS p2.1 p2.2 "c" (GoVal.vInt 3)

/-- First continuation branched from `branchBase`: `.Data("d",4)`. -/
def branchOne : Store × Slice := DataS branchBase.1 branchBase.2 "d" (GoVal.vInt 4)

/-- Second continuation branched from the same `branchBase` value (the
store already reflects the first continuation): `.Data("e",5)`. -/
def branchTwo : Store × Slice := DataS branchOne.1 branchBase.2 "e" (GoVal.vInt 5)

/-!
Spec-modelled extension: the `ShowCaller` configuration.

The repository's tests (`TestShowCallerConfiguration`,
`TestWithContextPreservesShowCaller`), README and examples use a
`ShowCaller` field of `LoggerConfig` and a `showCaller` field of `Logger`,
but the `logger.go` snapshot under `src/` predates that feature, so the
implementing code is not available.  The definitions below model it from
the spec.
-/

/-- Modelled from the spec: `LoggerConfig` including the `ShowCaller`
option (whether call-site location is attached to each record); the field
is missing from the `logger.go` snapshot. -/
structure LoggerConfigC where
  OutputMode : String
  LogLevel : String
  LogDir : String
  RequestIDKey : String
  ShowCaller : Bool
  deriving DecidableEq, Repr

/-- Modelled from the spec: the engine builder with `ShowCaller` — sinks
and severity floor as in `initLogWithConfig`, caller attribution attached
iff `ShowCaller` is true, and exactly one internal stack frame skipped so
attribution points at the user's call site. -/
def buildEngineC (config : LoggerConfigC) : EngineHandle :=
  let cores : List Sink := []
  let cores :=
    if config.OutputMode = OutputTerminal ∨ config.OutputMode = OutputBoth then
      cores ++ [Sink.terminal]
    else cores
  let cores :=
    if config.OutputMode = OutputFile ∨ config.OutputMode = OutputBoth then
      cores ++ [Sink.file config.LogDir]
    else cores
  let cores := if cores = [] then [Sink.terminal] else cores
  { cores := cores
    floor := getLogLevel config.LogLevel
    addCaller := config.ShowCaller
    callerSkip := 1 }

/-- Modelled from the spec: the default configuration used by `New()` —
both sinks, debug floor, directory `"logger"`, key `"request-id"`, caller
shown (`ShowCaller` defaults to true). -/
def defaultConfigC : LoggerConfigC :=
  { OutputMode := OutputBoth
    LogLevel := "debug"
    LogDir := "logger"
    RequestIDKey := "request-id"
    ShowCaller := true }

/-- Modelled from the spec: the `Logger` value including the `showCaller`
caller-visibility flag; the field is missing from the `logger.go`
snapshot. -/
structure LoggerC where
  log : EngineHandle
  ctx : GoContext
  level : String
  message : String
  data : List GoVal
  hasData : Bool
  requestIDKey : String
  showCaller : Bool
  deriving DecidableEq, Repr

/-- Modelled from the spec: `WithContext` on the extended logger —
rebinds the context, resets level, message, fields and `hasFields`, and
preserves the engine handle, the correlation field key and the
caller-visibility flag. -/
def LoggerC.WithContext (l : LoggerC) (ctx : GoContext) : LoggerC :=
  { log := l.log
    ctx := ctx
    level := ""
    message := ""
    data := []
    hasData := false
    requestIDKey := l.requestIDKey
    showCaller := l.showCaller }

/-!
Reachable records: every builder method as an operation, so invariants
can be proved for all records reachable from a fresh logger.
-/

/-- The six level-setting methods. -/
inductive LevelM where
  | debug
  | info
  | warn
  | error
  | fatal
  | panicLvl
  deriving DecidableEq, Repr

/-- The level string a level-setting method writes. -/
def LevelM.str : LevelM → String
  | LevelM.debug => "debug"
  | LevelM.info => "info"
  | LevelM.warn => "warn"
  | LevelM.error => "error"
  | LevelM.fatal => "fatal"
  | LevelM.panicLvl => "panic"

/-- One builder call: `WithContext`, a level setter, `Data`, or
`ErrorData`. -/
inductive Op where
  | withCtx (ctx : GoContext)
  | setLevel (lvl : LevelM) (msg : String)
  | addData (key : String) (value : GoVal)
  | addErrorData (err : Option GoError)
  deriving Repr

/-- Apply one builder call to a logger value. -/
def applyOp (l : Logger) : Op → Logger
  | Op.withCtx ctx => l.WithContext ctx
  | Op.setLevel LevelM.debug msg => l.Debug msg
  | Op.setLevel LevelM.info msg => l.Info msg
  | Op.setLevel LevelM.warn msg => l.Warn msg
  | Op.setLevel LevelM.error msg => l.Error msg
  | Op.setLevel LevelM.fatal msg => l.Fatal msg
  | Op.setLevel LevelM.panicLvl msg => l.PanicLevel msg
  | Op.addData key value => l.Data key value
  | Op.addErrorData err => l.ErrorData err

/-- Apply a sequence of builder calls, left to right. -/
def applyOps (l : Logger) (ops : List Op) : Logger :=
  ops.foldl applyOp l

/-- Whether a call sequence leaves the level unset: true initially and
after each `WithContext`, false after each level setter, and unchanged by
`Data` / `ErrorData`. -/
def levelUnset : Bool → List Op → Bool
  | b, [] => b
  | b, op :: rest =>
      levelUnset
        (match op with
         | Op.withCtx _ => true
         | Op.setLevel _ _ => false
         | _ => b)
        rest

/-- Whether the context carries a string under the request-id key (the
success condition of the type assertion in `GetRequestID`). -/
def requestIDIsString (ctx : GoContext) : Bool :=
  match ctx.value CtxKey.requestIDKey with
  | some (GoVal.vStr _) => true
  | _ => false

/-- The invariant claimed by the spec: `hasData` is set exactly when the
data list is non-empty. -/
def HasDataInv (l : Logger) : Prop := l.hasData = true ↔ l.data ≠ []

/-- The round-trip scenario record: bind id `"req-123"`, then chain
`Info("msg").Data("user_id", 123)` on a logger with the default
request-id key. -/
def roundTripRecord : Logger :=
  (((NewLoggerWithConfig
      { OutputMode := "terminal", LogLevel := "debug", LogDir := "logger", RequestIDKey := "" }).WithContext
      (WithRequestID GoContext.background "req-123")).Info "msg").Data "user_id" (GoVal.vInt 123)

/-!
Theorems.
-/

/-- C3: for every record and context, `WithContext` rebinds the context
and resets level, message, fields and `hasFields`, while the engine
handle, the correlation field key and the caller-visibility flag are
preserved unchanged. -/
theorem withContext_resets_and_preserves (l : LoggerC) (ctx : GoContext) :
    (l.WithContext ctx).ctx = ctx ∧ (l.WithContext ctx).level = "" ∧
    (l.WithContext ctx).message = "" ∧ (l.WithContext ctx).data = [] ∧
    (l.WithContext ctx).hasData = false ∧ (l.WithContext ctx).log = l.log ∧
    (l.WithContext ctx).requestIDKey = l.requestIDKey ∧
    (l.WithContext ctx).showCaller = l.showCaller :=
  ⟨rfl, rfl, rfl, rfl, rfl, rfl, rfl, rfl⟩

/-- C4: caller attribution is attached to emitted records exactly when
`ShowCaller` is true, the default configuration shows the caller, and
exactly one internal stack frame is skipped so attribution points at the
user's call site. -/
theorem showCaller_controls_attribution (config : LoggerConfigC) :
    (buildEngineC config).addCaller = config.ShowCaller ∧
    (buildEngineC config).callerSkip = 1 ∧
    defaultConfigC.ShowCaller = true :=
  ⟨rfl, rfl, rfl⟩

/-- C5: the request id round-trips — `GetRequestID` after
`WithRequestID ctx id` returns exactly `id`, and on any context that does
not carry a string under the request-id key it returns the empty
string. -/
theorem requestID_roundtrip (ctx ctx2 : GoContext) (id : String)
    (hid : id ≠ "") (h2 : requestIDIsString ctx2 = false) :
    GetRequestID (WithRequestID ctx id) = id ∧ GetRequestID ctx2 = "" := by
  constructor
  · simp [GetRequestID, WithRequestID, GoContext.withValue, GoContext.value, List.find?]
  · unfold GetRequestID
    unfold requestIDIsString at h2
    match hv : ctx2.value CtxKey.requestIDKey with
    | none => simp
    | some (GoVal.vStr s) => rw [hv] at h2; simp at h2
    | some (GoVal.vInt n) => simp
    | some (GoVal.vBool b) => simp
    | some GoVal.vNil => simp

/-- Witness for C5 at concrete inputs: a bound id `"req-1"` round-trips,
and a context whose request-id slot holds the non-string value `7`
resolves to the empty string. -/
theorem requestID_roundtrip_witness :
    GetRequestID (WithRequestID GoContext.background "req-1") = "req-1" ∧
    GetRequestID (GoContext.background.withValue CtxKey.requestIDKey (GoVal.vInt 7)) = "" :=
  requestID_roundtrip GoContext.background
    (GoContext.background.withValue CtxKey.requestIDKey (GoVal.vInt 7)) "req-1"
    (by decide) (by decide)

/-- C6: `ErrorData` on a nil error is a no-op — data, `hasData`, level,
message and the bound context all equal the receiver's. -/
theorem errorData_nil_noop (l : Logger) :
    (l.ErrorData none).data = l.data ∧ (l.ErrorData none).hasData = l.hasData ∧
    (l.ErrorData none).level = l.level ∧ (l.ErrorData none).message = l.message ∧
    (l.ErrorData none).ctx = l.ctx :=
  ⟨rfl, rfl, rfl, rfl, rfl⟩

/-- C8: an empty `RequestIDKey` in the configuration normalizes to
`"request-id"`, and a non-empty key is used unchanged. -/
theorem requestIDKey_normalized (config : LoggerConfig) :
    (config.RequestIDKey = "" → (NewLoggerWithConfig config).requestIDKey = "request-id") ∧
    (config.RequestIDKey ≠ "" → (NewLoggerWithConfig config).requestIDKey = config.RequestIDKey) := by
  constructor <;> intro h <;> simp [NewLoggerWithConfig, h]

/-- Witness for C8 at concrete configurations: the empty key yields
`"request-id"`, the key `"job_id"` is kept. -/
theorem requestIDKey_normalized_witness :
    (NewLoggerWithConfig ⟨"terminal", "info", "logs", ""⟩).requestIDKey = "request-id" ∧
    (NewLoggerWithConfig ⟨"terminal", "info", "logs", "job_id"⟩).requestIDKey = "job_id" :=
  ⟨(requestIDKey_normalized ⟨"terminal", "info", "logs", ""⟩).1 rfl,
   (requestIDKey_normalized ⟨"terminal", "info", "logs", "job_id"⟩).2 (by decide)⟩

/-- C9: an unrecognized or empty `OutputMode` yields exactly the terminal
sink; mode terminal or both yields a terminal sink; mode file or both
yields the rotating file sink for the configured directory. -/
theorem outputMode_sinks (config : LoggerConfig) :
    (config.OutputMode ≠ OutputTerminal ∧ config.OutputMode ≠ OutputFile ∧
        config.OutputMode ≠ OutputBoth →
      (initLogWithConfig config).cores = [Sink.terminal]) ∧
    (config.OutputMode = OutputTerminal ∨ config.OutputMode = OutputBoth →
      Sink.terminal ∈ (initLogWithConfig config).cores) ∧
    (config.OutputMode = OutputFile ∨ config.OutputMode = OutputBoth →
      Sink.file config.LogDir ∈ (initLogWithConfig config).cores) := by
  unfold initLogWithConfig OutputTerminal OutputFile OutputBoth
  refine ⟨?_, ?_, ?_⟩
  · rintro ⟨h1, h2, h3⟩
    simp [h1, h2, h3]
  · rintro (h | h) <;> rw [h] <;> simp
  · rintro (h | h) <;> rw [h] <;> simp

/-- Witness for C9 at concrete configurations: the empty mode falls back
to exactly the terminal sink, and mode both carries both sinks. -/
theorem outputMode_sinks_witness :
    (initLogWithConfig ⟨"", "info", "logs", ""⟩).cores = [Sink.terminal] ∧
    Sink.terminal ∈ (initLogWithConfig ⟨"both", "info", "logs", ""⟩).cores ∧
    Sink.file "logs" ∈ (initLogWithConfig ⟨"both", "info", "logs", ""⟩).cores :=
  ⟨(outputMode_sinks ⟨"", "info", "logs", ""⟩).1 (by decide),
   (outputMode_sinks ⟨"both", "info", "logs", ""⟩).2.1 (Or.inr rfl),
   (outputMode_sinks ⟨"both", "info", "logs", ""⟩).2.2 (Or.inr rfl)⟩

/-- Applying builder calls preserves an unset level: if the unset flag is
justified for the starting record and the call sequence keeps the level
unset, the resulting record's level is the empty string. -/
theorem applyOps_level_unset (ops : List Op) : ∀ (l : Logger) (b : Bool),
    (b = true → l.level = "") → levelUnset b ops = true →
    (applyOps l ops).level = "" := by
  induction ops with
  | nil =>
      intro l b hb hl
      exact hb hl
  | cons op rest ih =>
      intro l b hb hl
      cases op with
      | withCtx ctx =>
          exact ih (l.WithContext ctx) true (fun _ => rfl) hl
      | setLevel lvl msg =>
          refine ih _ false (fun h => absurd h (by simp)) ?_
          cases lvl <;> exact hl
      | addData key value =>
          exact ih (l.Data key value) b (fun h => hb h) hl
      | addErrorData err =>
          refine ih (l.ErrorData err) b (fun h => ?_) hl
          cases err <;> simpa [Logger.ErrorData] using hb h

/-- A record whose level is the empty string emits nothing from `Send`. -/
theorem send_empty_level (l : Logger) (h : l.level = "") : l.Send = none := by
  unfold Logger.Send
  rw [h]
  simp

/-- C10: for every record reachable without a level-setting call since
construction or since the last `WithContext`, `Send` performs no emission
at all. -/
theorem send_unset_level_no_emission (config : LoggerConfig) (ops : List Op)
    (h : levelUnset true ops = true) :
    (applyOps (NewLoggerWithConfig config) ops).Send = none :=
  send_empty_level _ (applyOps_level_unset ops (NewLoggerWithConfig config) true (fun _ => rfl) h)

/-- Witness for C10 at a concrete record: context bound and data added
but no level set, so `Send` emits nothing. -/
theorem send_unset_level_no_emission_witness :
    (applyOps (NewLoggerWithConfig ⟨"terminal", "info", "logs", ""⟩)
      [Op.withCtx (WithRequestID GoContext.background "req-9"),
       Op.addData "k" (GoVal.vInt 1)]).Send = none :=
  send_unset_level_no_emission ⟨"terminal", "info", "logs", ""⟩
    [Op.withCtx (WithRequestID GoContext.background "req-9"),
     Op.addData "k" (GoVal.vInt 1)] rfl

/-- One builder call preserves the `hasData` invariant. -/
theorem applyOp_hasDataInv (l : Logger) (op : Op) (h : HasDataInv l) :
    HasDataInv (applyOp l op) := by
  cases op with
  | withCtx ctx => simp [HasDataInv, applyOp, Logger.WithContext]
  | setLevel lvl msg => cases lvl <;> exact h
  | addData key value => simp [HasDataInv, applyOp, Logger.Data]
  | addErrorData err =>
      cases err with
      | none => exact h
      | some e => simp [HasDataInv, applyOp, Logger.ErrorData]

/-- A sequence of builder calls preserves the `hasData` invariant. -/
theorem applyOps_hasDataInv (ops : List Op) : ∀ (l : Logger), HasDataInv l →
    HasDataInv (applyOps l ops) := by
  induction ops with
  | nil => intro l h; exact h
  | cons op rest ih => intro l h; exact ih (applyOp l op) (applyOp_hasDataInv l op h)

/-- C7: for every record reachable from a freshly constructed logger by
any sequence of builder calls, `hasData` is true exactly when the data
list is non-empty. -/
theorem hasData_iff_data_nonempty (config : LoggerConfig) (ops : List Op) :
    (applyOps (NewLoggerWithConfig config) ops).hasData = true ↔
    (applyOps (NewLoggerWithConfig config) ops).data ≠ [] :=
  applyOps_hasDataInv ops (NewLoggerWithConfig config) (by simp [HasDataInv, NewLoggerWithConfig])

/-- C2: for every record at a recognized severity, `Send` resolves the
correlation id from the bound context, prepends the pair
`(requestIDKey, id)` before all user fields when the id is non-empty,
dispatches structured at the record's severity when the combined list is
non-empty, and emits a plain message-only record otherwise. -/
theorem send_dispatch (l : Logger)
    (h : l.level = "debug" ∨ l.level = "info" ∨ l.level = "warn" ∨
         l.level = "error" ∨ l.level = "fatal" ∨ l.level = "panic") :
    l.Send = some (if (logDataOf l).isEmpty then Emission.plain l.level l.message
                   else Emission.structured l.level l.message (logDataOf l)) ∧
    (GetRequestID l.ctx ≠ "" →
      logDataOf l = GoVal.vStr l.requestIDKey :: GoVal.vStr (GetRequestID l.ctx) :: l.data) ∧
    (GetRequestID l.ctx = "" → logDataOf l = l.data) := by
  refine ⟨?_, ?_, ?_⟩
  · unfold Logger.Send
    rcases h with h | h | h | h | h | h <;> rw [h] <;>
      cases hD : (logDataOf l).isEmpty <;> simp [hD]
  · intro hrid; simp [logDataOf, hrid]
  · intro hrid; simp [logDataOf, hrid]

/-- Witness for C2: the round-trip scenario — id `"req-123"` bound,
`Info("msg").Data("user_id",123)` — emits a structured info record with
fields ordered request-id first, then the user field. -/
theorem send_dispatch_witness :
    roundTripRecord.Send =
      some (Emission.structured "info" "msg"
        [GoVal.vStr "request-id", GoVal.vStr "req-123",
         GoVal.vStr "user_id", GoVal.vInt 123]) :=
  (send_dispatch roundTripRecord (Or.inr (Or.inl rfl))).1.trans (by decide)

/-- C1: the claimed branch independence fails on the code — after the
base chain `Data("a",1).Data("b",2).Data("c",3)` (length 6 in a
capacity-8 backing array), the two continuations `.Data("d",4)` and
`.Data("e",5)` share the backing array, so the field `("e",5)` appended
by the second continuation appears in the first continuation's record and
the first continuation's own field `("d",4)` is lost. -/
theorem data_branch_contamination :
    sliceContents branchTwo.1 branchOne.2 =
      [GoVal.vStr "a", GoVal.vInt 1, GoVal.vStr "b", GoVal.vInt 2,
       GoVal.vStr "c", GoVal.vInt 3, GoVal.vStr "e", GoVal.vInt 5] ∧
    GoVal.vStr "e" ∈ sliceContents branchTwo.1 branchOne.2 ∧
    GoVal.vStr "d" ∉ sliceContents branchTwo.1 branchOne.2 := by
  refine ⟨rfl, ?_, ?_⟩ <;> decide

end Gologger
